import Mathlib

/-!
Formal model of `pytorch_lightning/plugins/training_type/full_sharded.py`:
the `FullShardedPlugin` configuration plugin, its construction-time
validation, and the checkpoint key-stripping transformation used by
`collate_state_dict` and `on_save`.
-/

namespace FullSharded

/-- Model of the `torch.dtype` values that can be passed as `compute_dtype`. -/
inductive Dtype where
  | float16
  | bfloat16
  | float32
  | float64
deriving DecidableEq, Repr

/-- State-dict keys are Python strings, modelled as lists of characters. -/
abbrev Key := List Char

/-- The wrapper-introduced key piece handled by `collate_state_dict`:
the literal string passed to `k.partition` in the source. -/
def moduleSep : Key := "module.".toList

/-- Python `k.partition(sep)[2]`: the part of `k` after the first occurrence
of `sep`, and the empty string when `sep` does not occur in `k`. -/
def partitionTail (sep : Key) : Key → Key
  | [] => []
  | c :: rest =>
      if sep.isPrefixOf (c :: rest) then (c :: rest).drop sep.length
      else partitionTail sep rest

/-- The per-key transformation applied by `collate_state_dict`:
`k.partition('module.')[2]`. -/
def stripKey (k : Key) : Key := partitionTail moduleSep k

/-- A model object; only its state dict is relevant to this file. -/
structure ModelRep (α : Type) where
  state_dict : List (Key × α)
deriving DecidableEq

/-- Python dict assignment `d[k] = v`: overwrite the entry if the key is
present, otherwise append the new entry at the end. -/
def dictInsert {α : Type} (d : List (Key × α)) (k : Key) (v : α) :
    List (Key × α) :=
  if d.any (fun kv => kv.1 == k) then
    d.map (fun kv => if kv.1 == k then (k, v) else kv)
  else d ++ [(k, v)]

/-- A Python dict comprehension that maps every key through `f` and keeps the
value associated with the original key, iterating in source order. -/
def dictComprehension {α : Type} (f : Key → Key) (src : List (Key × α)) :
    List (Key × α) :=
  src.foldl (fun d kv => dictInsert d (f kv.1) kv.2) []

/-- `FullShardedPlugin.collate_state_dict`: rebuilds the model state dict
with every key replaced by `k.partition('module.')[2]`. The state dict of
`self.model` is passed explicitly as the state dict of `m`. -/
def collate_state_dict {α : Type} (m : ModelRep α) : List (Key × α) :=
  dictComprehension stripKey m.state_dict

/-- The exception type raised on misconfiguration
(`MisconfigurationException`). -/
inductive PLError where
  | misconfiguration (msg : String)
deriving DecidableEq

/-- The documented installation message raised when the FairScale full
sharded dependency is missing. -/
def msgNotAvailable : String :=
  "Full Sharded Training is not available. Install the latest FairScale via `pip install fairscale -U`"

/-- The message raised when sync batchnorm is requested. -/
def msgSyncBatchNorm : String :=
  "Currently sync batch norm is not supported by Full Sharded Training."

/-- Python truthiness of an `Optional[bool]` value: `None` is falsy. -/
def truthy : Option Bool → Bool
  | some b => b
  | none => false

/-- The plugin's configuration attributes as set by `__init__`. -/
structure FullShardedPlugin where
  cpu_offload : Bool
  flatten_parameters : Bool
  reshard_after_forward : Bool
  fp32_reduce_scatter : Option Bool
  compute_dtype : Option Dtype
  bucket_cap_mb : Int
  sync_batchnorm : Option Bool
deriving DecidableEq

/-- The constructor arguments of `FullShardedPlugin.__init__` with their
Python default values. The device and cluster arguments, which are passed
through to the base class unchanged, are omitted. -/
structure InitArgs where
  cpu_offload : Bool := true
  flatten_parameters : Bool := false
  reshard_after_forward : Bool := false
  fp32_reduce_scatter : Option Bool := some false
  compute_dtype : Option Dtype := none
  bucket_cap_mb : Int := 25
  sync_batchnorm : Option Bool := some false
deriving DecidableEq

/-- `FullShardedPlugin.__init__`. `avail` models the imported module-level
flag `_FAIRSCALE_FULL_SHARDED_AVAILABLE`; the two checks run in source order
before the attribute assignments. -/
def init (avail : Bool) (a : InitArgs) : Except PLError FullShardedPlugin :=
  if !avail then
    .error (.misconfiguration msgNotAvailable)
  else if truthy a.sync_batchnorm then
    .error (.misconfiguration msgSyncBatchNorm)
  else
    .ok { cpu_offload := a.cpu_offload,
          flatten_parameters := a.flatten_parameters,
          reshard_after_forward := a.reshard_after_forward,
          fp32_reduce_scatter := a.fp32_reduce_scatter,
          compute_dtype := a.compute_dtype,
          bucket_cap_mb := a.bucket_cap_mb,
          sync_batchnorm := a.sync_batchnorm }

/-- The keyword arguments passed to the external `FullyShardedDataParallel`
constructor by `configure_ddp`. -/
structure FSDPArgs where
  cpu_offload : Bool
  move_grads_to_cpu : Bool
  flatten_parameters : Bool
  mixed_precision : Bool
  reshard_after_forward : Bool
  fp32_reduce_scatter : Option Bool
  compute_dtype : Option Dtype
  bucket_cap_mb : Int
deriving DecidableEq

/-- The argument record built inside `configure_ddp` from the stored plugin
attributes and the trainer precision. -/
def mkFSDPArgs (p : FullShardedPlugin) (precision : String) : FSDPArgs :=
  { cpu_offload := p.cpu_offload,
    move_grads_to_cpu := p.cpu_offload,
    flatten_parameters := p.flatten_parameters,
    mixed_precision := precision == "mixed",
    reshard_after_forward := p.reshard_after_forward,
    fp32_reduce_scatter := p.fp32_reduce_scatter,
    compute_dtype := p.compute_dtype,
    bucket_cap_mb := p.bucket_cap_mb }

/-- `FullShardedPlugin.configure_ddp`: wraps `self.model` in the external
`FullyShardedDataParallel`, passing the stored configuration values. `wrap`
stands for the external wrapper constructor (third-party code, out of
scope); `self.model` is threaded explicitly, and the configuration record is
returned alongside the new model, since the method assigns only
`self.model`. -/
def configure_ddp {α : Type} (p : FullShardedPlugin) (precision : String)
    (m : ModelRep α) (wrap : FSDPArgs → ModelRep α → ModelRep α) :
    FullShardedPlugin × ModelRep α :=
  (p, wrap (mkFSDPArgs p precision) m)

/-- Modelled from the spec: the base DDP plugin's `model_to_device` (module
to device placement) is not part of this file, and is represented as an
abstract transformation `base` of the model. The plugin's `model_to_device`
delegates to it exactly when `cpu_offload` is disabled, and does nothing
otherwise. -/
def model_to_device {α : Type} (p : FullShardedPlugin) (m : ModelRep α)
    (base : ModelRep α → ModelRep α) : FullShardedPlugin × ModelRep α :=
  if !p.cpu_offload then (p, base m) else (p, m)

/-- A value stored in a checkpoint dictionary: either a state-dict entry,
which is a flat mapping from parameter name to tensor value, or any other
payload. -/
inductive CkptVal (α : Type) where
  | stateDict (sd : List (Key × α))
  | other (n : Nat)
deriving DecidableEq

/-- A checkpoint dictionary, as a partial map from string keys to values. -/
def Ckpt (α : Type) : Type := String → Option (CkptVal α)

/-- `FullShardedPlugin.on_save`: replaces the entry stored under the
checkpoint key named state_dict with the collated model state dict, leaves
every other entry as it is, and returns the checkpoint. -/
def on_save {α : Type} (m : ModelRep α) (checkpoint : Ckpt α) : Ckpt α :=
  fun key =>
    if key = "state_dict" then some (.stateDict (collate_state_dict m))
    else checkpoint key

/-- The six configuration attributes as optionally-set slots, used to record
which assignments `__init__` has performed when it finishes or raises. -/
structure PartialAttrs where
  cpu_offload : Option Bool
  flatten_parameters : Option Bool
  reshard_after_forward : Option Bool
  fp32_reduce_scatter : Option (Option Bool)
  compute_dtype : Option (Option Dtype)
  bucket_cap_mb : Option Int
deriving DecidableEq

/-- The state in which no attribute has been set yet. -/
def PartialAttrs.empty : PartialAttrs := ⟨none, none, none, none, none, none⟩

/-- `FullShardedPlugin.__init__` with its attribute assignments made
observable: the two `MisconfigurationException` checks run, in source order,
before any of the six assignment statements executes. -/
def initTrace (avail : Bool) (a : InitArgs) : PartialAttrs × Option PLError :=
  if !avail then
    (.empty, some (.misconfiguration msgNotAvailable))
  else if truthy a.sync_batchnorm then
    (.empty, some (.misconfiguration msgSyncBatchNorm))
  else
    ({ cpu_offload := some a.cpu_offload,
       flatten_parameters := some a.flatten_parameters,
       reshard_after_forward := some a.reshard_after_forward,
       fp32_reduce_scatter := some a.fp32_reduce_scatter,
       compute_dtype := some a.compute_dtype,
       bucket_cap_mb := some a.bucket_cap_mb }, none)

/-- A concrete argument record: the Python default arguments. -/
def argsD : InitArgs := {}

/-- The plugin produced by constructing with the default arguments. -/
def pluginD : FullShardedPlugin :=
  { cpu_offload := true, flatten_parameters := false,
    reshard_after_forward := false, fp32_reduce_scatter := some false,
    compute_dtype := none, bucket_cap_mb := 25, sync_batchnorm := some false }

/-- A concrete model with a one-entry state dict. -/
def modelD : ModelRep Nat := ⟨[("module.weight".toList, 1)]⟩

/-- A concrete checkpoint holding one non-state-dict entry. -/
def ckptD : Ckpt Nat := fun key => if key = "epoch" then some (.other 3) else none

/-! ## Lemmas about the per-key transformation `k.partition('module.')[2]` -/

theorem partitionTail_nil (sep : Key) : partitionTail sep [] = [] := rfl

theorem partitionTail_cons_pos {sep : Key} {c : Char} {rest : Key}
    (h : sep.isPrefixOf (c :: rest) = true) :
    partitionTail sep (c :: rest) = (c :: rest).drop sep.length := by
  simp [partitionTail, h]

theorem partitionTail_cons_neg {sep : Key} {c : Char} {rest : Key}
    (h : sep.isPrefixOf (c :: rest) = false) :
    partitionTail sep (c :: rest) = partitionTail sep rest := by
  simp [partitionTail, h]

/-- When `sep` starts the string, `partition(sep)[2]` drops exactly `sep`. -/
theorem partitionTail_of_prefixed {sep s : Key} (h : sep <+: s) :
    partitionTail sep s = s.drop sep.length := by
  cases s with
  | nil => rw [partitionTail_nil]; simp
  | cons c rest =>
      have hb : sep.isPrefixOf (c :: rest) = true :=
        ( List.isPrefixOf_iff_prefix).mpr h
      exact partitionTail_cons_pos hb

/-- When `sep` does not occur, `partition(sep)[2]` is the empty string. -/
theorem partitionTail_eq_nil_of_no_occurrence {sep : Key} :
    ∀ s : Key, ¬ (sep <:+: s) → partitionTail sep s = [] := by
  intro s
  induction s with
  | nil => intro _; rfl
  | cons c rest ih =>
      intro h
      rw [ List.infix_cons_iff] at h
      push_neg at h
      obtain ⟨h1, h2⟩ := h
      cases hb : sep.isPrefixOf (c :: rest) with
      | true => exact absurd (( List.isPrefixOf_iff_prefix).mp hb) h1
      | false =>
          rw [partitionTail_cons_neg hb]
          exact ih h2

/-- When `sep` occurs, `partition(sep)[2]` is the part after the leftmost
occurrence of `sep`: the string decomposes around `sep` with the remainder
being the result, and the left part of that decomposition is shortest among
all decompositions. -/
theorem partitionTail_first_occurrence {sep : Key} :
    ∀ s : Key, sep <:+: s →
      ∃ a : Key, s = a ++ (sep ++ partitionTail sep s) ∧
        ∀ a' b' : Key, s = a' ++ (sep ++ b') → a.length ≤ a'.length := by
  intro s
  induction s with
  | nil =>
      intro h
      obtain ⟨u, t, hut⟩ := h
      simp only [List.append_eq_nil] at hut
      obtain ⟨⟨hu, hsep⟩, ht⟩ := hut
      subst hsep
      exact ⟨[], by simp [partitionTail_nil], fun a' b' _ => by simp⟩
  | cons c rest ih =>
      intro h
      cases hb : sep.isPrefixOf (c :: rest) with
      | true =>
          have hpre : sep <+: c :: rest := ( List.isPrefixOf_iff_prefix).mp hb
          obtain ⟨t, ht⟩ := hpre
          refine ⟨[], ?_, fun a' b' _ => by simp⟩
          rw [partitionTail_cons_pos hb, List.nil_append, ← ht, List.drop_left]
      | false =>
          have hnp : ¬ (sep <+: c :: rest) := by
            intro hc
            have hb' := ( List.isPrefixOf_iff_prefix).mpr hc
            rw [hb] at hb'
            simp at hb'
          have hrest : sep <:+: rest := by
            rcases ( List.infix_cons_iff).mp h with hpre | hin
            · exact absurd hpre hnp
            · exact hin
          obtain ⟨a, ha, hmin⟩ := ih hrest
          rw [partitionTail_cons_neg hb]
          refine ⟨c :: a, ?_, ?_⟩
          · rw [List.cons_append, ← ha]
          · intro a' b' hab
            cases a' with
            | nil =>
                rw [List.nil_append] at hab
                exact absurd ⟨b', hab.symm⟩ hnp
            | cons c2 a'' =>
                simp only [List.cons_append, List.cons.injEq] at hab
                obtain ⟨-, h2⟩ := hab
                simpa using Nat.succ_le_succ (hmin a'' b' h2)

/-- On a nonempty string, `partition(sep)[2]` is strictly shorter than the
input whenever `sep` is nonempty. -/
theorem partitionTail_length_lt {sep : Key} (hsep : sep ≠ []) :
    ∀ s : Key, s ≠ [] → (partitionTail sep s).length < s.length := by
  intro s
  induction s with
  | nil => intro h; exact absurd rfl h
  | cons c rest ih =>
      intro _
      cases hb : sep.isPrefixOf (c :: rest) with
      | true =>
          rw [partitionTail_cons_pos hb]
          have hlen : 0 < sep.length := List.length_pos.mpr hsep
          simp only [List.length_drop, List.length_cons]
          omega
      | false =>
          rw [partitionTail_cons_neg hb]
          by_cases hr : rest = []
          · subst hr; rw [partitionTail_nil]; simp
          · have hlt := ih hr
            simp only [List.length_cons]
            omega

theorem stripKey_nil : stripKey [] = [] := rfl

theorem stripKey_length_lt {k : Key} (h : k ≠ []) :
    (stripKey k).length < k.length :=
  partitionTail_length_lt (by decide) k h

/-! ## Lemmas about the dict comprehension -/

theorem dictInsert_keys_nodup {α : Type} {d : List (Key × α)} (k : Key) (v : α)
    (h : (d.map Prod.fst).Nodup) : ((dictInsert d k v).map Prod.fst).Nodup := by
  unfold dictInsert
  by_cases hmem : d.any (fun kv => kv.1 == k) = true
  · rw [if_pos hmem]
    have hkeys : (d.map (fun kv => if kv.1 == k then (k, v) else kv)).map Prod.fst
        = d.map Prod.fst := by
      rw [List.map_map]
      apply List.map_congr_left
      intro kv _
      by_cases hkv : kv.1 == k
      · simp only [Function.comp_apply, hkv, if_true]
        exact (eq_of_beq hkv).symm
      · have hne : kv.1 ≠ k := fun he => hkv (by simp [he])
        simp [Function.comp_apply, hne]
    rw [hkeys]
    exact h
  · rw [if_neg hmem]
    rw [List.map_append, List.nodup_append]
    refine ⟨h, by simp, ?_⟩
    intro x hx hx'
    simp only [List.map_cons, List.map_nil, List.mem_singleton] at hx'
    subst hx'
    apply hmem
    rw [List.any_eq_true]
    obtain ⟨kv, hkv, hfst⟩ := List.mem_map.mp hx
    exact ⟨kv, hkv, by simp [hfst]⟩

/-- A dict built by a comprehension has no duplicate keys. -/
theorem dictComprehension_keys_nodup {α : Type} (f : Key → Key)
    (src : List (Key × α)) :
    ((dictComprehension f src).map Prod.fst).Nodup := by
  suffices h : ∀ d : List (Key × α), (d.map Prod.fst).Nodup →
      ((src.foldl (fun d kv => dictInsert d (f kv.1) kv.2) d).map Prod.fst).Nodup by
    unfold dictComprehension
    exact h [] (by simp)
  induction src with
  | nil => intro d hd; simpa using hd
  | cons kv rest ih =>
      intro d hd
      rw [List.foldl_cons]
      exact ih _ (dictInsert_keys_nodup (f kv.1) kv.2 hd)

/-! ## Claim theorems -/

/-- C1 counterexample: the per-key transformation of `collate_state_dict`
does not leave a key that lacks the wrapper piece unchanged; the one-letter
key maps to the empty string, refuting the claim as stated. -/
theorem stripKey_counterexample_unprefixed_key :
    ¬ (moduleSep <+: ['x']) ∧ stripKey ['x'] ≠ ['x'] := by decide

/-- C1 (amended): for every key that starts with the wrapper piece, the
per-key transformation of `collate_state_dict` returns the key with that
leading piece removed; a key in which the piece never occurs is mapped to
the empty string, not left unchanged. -/
theorem stripKey_drops_leading_wrapper_piece :
    ∀ k : Key, (moduleSep <+: k → stripKey k = k.drop moduleSep.length) ∧
      (¬ (moduleSep <:+: k) → stripKey k = []) := by
  intro k
  exact ⟨fun h => partitionTail_of_prefixed h,
         fun h => partitionTail_eq_nil_of_no_occurrence k h⟩

/-- Witness for the amended C1 theorem at two concrete keys. -/
theorem stripKey_drops_leading_wrapper_piece_witness :
    stripKey "module.weight".toList
        = "module.weight".toList.drop moduleSep.length ∧
    stripKey "bias".toList = [] :=
  ⟨(stripKey_drops_leading_wrapper_piece "module.weight".toList).1 (by decide),
   (stripKey_drops_leading_wrapper_piece "bias".toList).2 (by decide)⟩

/-- C2 counterexample: the per-key transformation is not idempotent; on the
concrete key built from the wrapper piece followed by a letter, a second
application gives a different result than the first. -/
theorem stripKey_not_idempotent :
    stripKey (stripKey "module.x".toList) ≠ stripKey "module.x".toList := by
  decide

/-- C2 (amended): applying the per-key transformation of
`collate_state_dict` twice agrees with applying it once exactly on those
keys where a single application already yields the empty string; on every
other key the two differ. -/
theorem stripKey_idem_characterization :
    ∀ k : Key, stripKey (stripKey k) = stripKey k ↔ stripKey k = [] := by
  intro k
  constructor
  · intro h
    by_contra hne
    have hlt := stripKey_length_lt hne
    rw [h] at hlt
    exact Nat.lt_irrefl _ hlt
  · intro h
    rw [h, stripKey_nil]

/-- C3: for every combination of the remaining constructor arguments,
constructing `FullShardedPlugin` while the FairScale full-sharded
dependency is unavailable raises `MisconfigurationException` with the
documented installation message. -/
theorem init_fails_without_fairscale (a : InitArgs) :
    init false a = .error (.misconfiguration msgNotAvailable) := rfl

/-- C4: for every combination of the remaining constructor arguments, with
the dependency available, requesting synchronized batch normalization makes
the constructor raise `MisconfigurationException`. -/
theorem init_fails_with_sync_batchnorm (avail : Bool) (a : InitArgs)
    (h1 : avail = true) (h2 : a.sync_batchnorm = some true) :
    init avail a = .error (.misconfiguration msgSyncBatchNorm) := by
  subst h1
  simp [init, truthy, h2]

/-- Witness for C4 at a concrete argument record. -/
theorem init_fails_with_sync_batchnorm_witness :
    init true { sync_batchnorm := some true }
      = .error (.misconfiguration msgSyncBatchNorm) :=
  init_fails_with_sync_batchnorm true { sync_batchnorm := some true } rfl rfl

/-- C5: the six configuration values are stored as plain attributes by the
constructor; `configure_ddp` and `model_to_device` leave the stored
configuration unchanged; and `configure_ddp` hands each stored value to the
external `FullyShardedDataParallel` constructor exactly as stored. -/
theorem config_stored_and_passed_unchanged :
    (∀ (avail : Bool) (a : InitArgs) (p : FullShardedPlugin),
        init avail a = .ok p →
          p.cpu_offload = a.cpu_offload ∧
          p.flatten_parameters = a.flatten_parameters ∧
          p.reshard_after_forward = a.reshard_after_forward ∧
          p.fp32_reduce_scatter = a.fp32_reduce_scatter ∧
          p.compute_dtype = a.compute_dtype ∧
          p.bucket_cap_mb = a.bucket_cap_mb) ∧
    (∀ (p : FullShardedPlugin) (precision : String),
        (mkFSDPArgs p precision).cpu_offload = p.cpu_offload ∧
        (mkFSDPArgs p precision).flatten_parameters = p.flatten_parameters ∧
        (mkFSDPArgs p precision).reshard_after_forward
            = p.reshard_after_forward ∧
        (mkFSDPArgs p precision).fp32_reduce_scatter = p.fp32_reduce_scatter ∧
        (mkFSDPArgs p precision).compute_dtype = p.compute_dtype ∧
        (mkFSDPArgs p precision).bucket_cap_mb = p.bucket_cap_mb) ∧
    (∀ (α : Type) (p : FullShardedPlugin) (precision : String)
        (m : ModelRep α) (wrap : FSDPArgs → ModelRep α → ModelRep α)
        (base : ModelRep α → ModelRep α),
        (configure_ddp p precision m wrap).1 = p ∧
        (model_to_device p m base).1 = p ∧
        configure_ddp p precision m wrap
            = (p, wrap (mkFSDPArgs p precision) m)) := by
  refine ⟨?_, ?_, ?_⟩
  · intro avail a p h
    cases avail with
    | false => simp [init] at h
    | true =>
        cases hb : truthy a.sync_batchnorm with
        | true => simp [init, hb] at h
        | false =>
            simp [init, hb] at h
            subst h
            exact ⟨rfl, rfl, rfl, rfl, rfl, rfl⟩
  · intro p precision
    exact ⟨rfl, rfl, rfl, rfl, rfl, rfl⟩
  · intro α p precision m wrap base
    refine ⟨rfl, ?_, rfl⟩
    cases hc : p.cpu_offload <;> simp [model_to_device, hc]

/-- Witness for C5 at the default construction. -/
theorem config_stored_and_passed_unchanged_witness :
    pluginD.cpu_offload = argsD.cpu_offload ∧
    pluginD.flatten_parameters = argsD.flatten_parameters ∧
    pluginD.reshard_after_forward = argsD.reshard_after_forward ∧
    pluginD.fp32_reduce_scatter = argsD.fp32_reduce_scatter ∧
    pluginD.compute_dtype = argsD.compute_dtype ∧
    pluginD.bucket_cap_mb = argsD.bucket_cap_mb :=
  config_stored_and_passed_unchanged.1 true argsD pluginD rfl

/-- C6: `on_save` returns the checkpoint with the state-dict entry replaced
by the collated model state dict and every other entry unchanged; the
stored entry is the flat key-to-value mapping `collate_state_dict`
produces. -/
theorem on_save_updates_only_state_dict_entry :
    ∀ (α : Type) (m : ModelRep α) (c : Ckpt α),
      on_save m c "state_dict" = some (.stateDict (collate_state_dict m)) ∧
      ∀ key : String, key ≠ "state_dict" → on_save m c key = c key := by
  intro α m c
  constructor
  · simp [on_save]
  · intro key hk
    simp [on_save, hk]

/-- Witness for C6: an unrelated entry survives `on_save` unchanged. -/
theorem on_save_updates_only_state_dict_entry_witness :
    on_save modelD ckptD "epoch" = ckptD "epoch" :=
  (on_save_updates_only_state_dict_entry Nat modelD ckptD).2 "epoch" (by decide)

/-- C7: whenever the constructor raises either misconfiguration error, it
does so before any of the six configuration attributes has been assigned:
the recorded attribute state on error is the empty one. -/
theorem init_raises_before_any_assignment :
    ∀ (avail : Bool) (a : InitArgs) (s : PartialAttrs) (e : PLError),
      initTrace avail a = (s, some e) → s = PartialAttrs.empty := by
  intro avail a s e h
  cases avail with
  | false =>
      simp [initTrace] at h
      exact h.1.symm
  | true =>
      cases hb : truthy a.sync_batchnorm with
      | true =>
          simp [initTrace, hb] at h
          exact h.1.symm
      | false => simp [initTrace, hb] at h

/-- Witness for C7 at the missing-dependency error. -/
theorem init_raises_before_any_assignment_witness :
    (initTrace false argsD).1 = PartialAttrs.empty :=
  init_raises_before_any_assignment false argsD (initTrace false argsD).1
    (.misconfiguration msgNotAvailable) rfl

/-- C8: `model_to_device` leaves the model untouched when `cpu_offload` is
enabled and delegates to the base DDP placement when it is disabled. -/
theorem model_to_device_dispatch :
    ∀ (α : Type) (p : FullShardedPlugin) (m : ModelRep α)
      (base : ModelRep α → ModelRep α),
      (p.cpu_offload = true → model_to_device p m base = (p, m)) ∧
      (p.cpu_offload = false → model_to_device p m base = (p, base m)) := by
  intro α p m base
  constructor
  · intro h; simp [model_to_device, h]
  · intro h; simp [model_to_device, h]

/-- Witness for C8: with `cpu_offload` enabled nothing happens. -/
theorem model_to_device_dispatch_witness :
    model_to_device pluginD modelD id = (pluginD, modelD) :=
  (model_to_device_dispatch Nat pluginD modelD id).1 rfl

/-- C9: the per-key transformation returns the substring after the first
occurrence of the wrapper piece (empty when it never occurs), and the
resulting dict has no duplicate keys, so all keys lacking the piece
collapse into the single empty-key entry. -/
theorem stripKey_first_occurrence_semantics :
    (∀ k : Key, ¬ (moduleSep <:+: k) → stripKey k = []) ∧
    (∀ k : Key, moduleSep <:+: k →
        ∃ a : Key, k = a ++ (moduleSep ++ stripKey k) ∧
          ∀ a' b' : Key, k = a' ++ (moduleSep ++ b') → a.length ≤ a'.length) ∧
    (∀ (α : Type) (m : ModelRep α),
        ((collate_state_dict m).map Prod.fst).Nodup) := by
  refine ⟨?_, ?_, ?_⟩
  · intro k h
    exact partitionTail_eq_nil_of_no_occurrence k h
  · intro k h
    exact partitionTail_first_occurrence k h
  · intro α m
    exact dictComprehension_keys_nodup stripKey m.state_dict

/-- Witness for C9 at two concrete keys. -/
theorem stripKey_first_occurrence_semantics_witness :
    stripKey "bias".toList = [] ∧
    (∃ a : Key,
        "a.module.b".toList = a ++ (moduleSep ++ stripKey "a.module.b".toList) ∧
        ∀ a' b' : Key,
          "a.module.b".toList = a' ++ (moduleSep ++ b') →
            a.length ≤ a'.length) :=
  ⟨stripKey_first_occurrence_semantics.1 "bias".toList (by decide),
   stripKey_first_occurrence_semantics.2.1 "a.module.b".toList (by decide)⟩

/-- C10: `configure_ddp` always hands the external wrapper
`move_grads_to_cpu` equal to the stored `cpu_offload`, alongside
`cpu_offload` itself, so the two settings cannot diverge through this
plugin. -/
theorem configure_ddp_ties_move_grads_to_cpu_offload :
    ∀ (α : Type) (p : FullShardedPlugin) (precision : String)
      (m : ModelRep α) (wrap : FSDPArgs → ModelRep α → ModelRep α),
      (mkFSDPArgs p precision).move_grads_to_cpu = p.cpu_offload ∧
      (mkFSDPArgs p precision).cpu_offload = p.cpu_offload ∧
      configure_ddp p precision m wrap
          = (p, wrap (mkFSDPArgs p precision) m) :=
  fun _ _ _ _ _ => ⟨rfl, rfl, rfl⟩

end FullSharded
